import Mathlib

/-!
Shallow embedding of `databox.go` (package `databox`, repository `prochac/databox-go`).

The package is a thin client for the Databox push API.  The embedding models:

* JSON values (`Jval`) — the narrow JSON-representable value type used for
  `map[string]interface{}` attribute values and for parsed response bodies;
* Go maps of JSON values as association lists with overwrite-on-insert
  (`mapInsert`) and lookup (`mapGet`); the entries stored in a Go map are
  unordered, writing twice to one key keeps the last value;
* `KPI.ToJSONData`, `serializeKPIs` and the JSON bytes produced by
  `encoding/json.Marshal` (which emits map keys in sorted order and honours
  the `omitempty` option on `KPIWrap.Meta`);
* request construction (`postRequest` / `getRequest` build the URL from the
  package constant `apiURL`) and the response handling of the push and read
  paths, with the HTTP exchange abstracted as an oracle
  `http : HTTPRequest → TransportResult`;
* the `encoding/json.Unmarshal` decoding used on response bodies.  A body that
  is not valid JSON is modelled as `none`; a valid JSON body is carried as the
  parsed `Jval`.  `Unmarshal` of JSON `null` into the `**ResponseStatus` passed
  on the push path sets the inner pointer to nil, so the subsequent field
  access `responseStatus.Type` on the non-2xx branch is a nil dereference;
  this outcome is modelled explicitly as `ReqError.nilDeref`.

Numeric values (`float32` in the source) are carried symbolically as rationals;
no arithmetic is ever performed on them.  Go formats an integral float without
a decimal point; `renderNum` renders integral rationals the same way and the
rendering of non-integral numbers is an abstraction (no claim depends on it).
-/

namespace Databox

/-- JSON-representable values, as suggested by the data model: null, bool,
number, string, array, object.  Objects are association lists of fields. -/
inductive Jval where
  | null : Jval
  | bool : Bool → Jval
  | num : ℚ → Jval
  | str : String → Jval
  | arr : List Jval → Jval
  | obj : List (String × Jval) → Jval

/-- Go map assignment `m[k] = v`: any previous binding of `k` is replaced.
The binding is appended at the end, so the most recent write is the last
entry; keys stay pairwise distinct when starting from the empty map. -/
def mapInsert (m : List (String × Jval)) (k : String) (v : Jval) :
    List (String × Jval) :=
  m.filter (fun kv => !(kv.1 == k)) ++ [(k, v)]

/-- Go map read `m[k]`. -/
def mapGet (m : List (String × Jval)) (k : String) : Option Jval :=
  (m.find? (fun kv => kv.1 == k)).map Prod.snd

/-- Reading a Go map that was populated from an association list in which a
later entry for the same key overwrites an earlier one: the last binding wins.
Used to state what `kpi.Metrics[m]` / `kpi.Attributes[a]` hold. -/
def lookupLast {β : Type} (l : List (String × β)) (k : String) : Option β :=
  (l.reverse.find? (fun kv => kv.1 == k)).map Prod.snd

/-- KPI struct (`databox.go` lines 36-55).  `Metrics` and `Attributes` are Go
maps; they are carried as association lists (a later duplicate key overwrites
an earlier one, exactly as repeated Go map writes would). -/
structure KPI where
  key : String
  value : ℚ
  metrics : List (String × ℚ)
  date : String
  unit : String
  attributes : List (String × Jval)

/-- KPIWrap struct (lines 58-61): root object with `data` and an omitempty
`meta`.  `Meta == nil` is `none`; `Data` entries are the per-record maps. -/
structure KPIWrap where
  data : List (List (String × Jval))
  meta : Option (List (String × Jval))

/-- ResponseStatus struct (lines 64-68). -/
structure ResponseStatus where
  id : String
  type : String
  message : String
deriving DecidableEq

/-- PushRequest struct (lines 71-75). -/
structure PushRequest where
  date : String
  body : KPIWrap
  errors : List String

/-- PushResponse struct (lines 78-81). -/
structure PushResponse where
  date : String
  body : ResponseStatus

/-- LastPush struct (lines 84-88). -/
structure LastPush where
  request : PushRequest
  response : PushResponse
  metrics : List String

/-- Go zero value of `ResponseStatus`. -/
def zeroRS : ResponseStatus := ⟨"", "", ""⟩

/-- Go zero value of `KPIWrap` (nil slice, nil map). -/
def zeroWrap : KPIWrap := ⟨[], none⟩

/-- Go zero value of `PushRequest`. -/
def zeroPushRequest : PushRequest := ⟨"", zeroWrap, []⟩

/-- Go zero value of `PushResponse`. -/
def zeroPushResponse : PushResponse := ⟨"", zeroRS⟩

/-- Go zero value of `LastPush`. -/
def zeroLastPush : LastPush := ⟨zeroPushRequest, zeroPushResponse, []⟩

/-- ToJSONData (lines 257-282): attributes first, then `$`-prefixed metrics,
then `$key ↦ value` when the key is non-empty, then `date` and `unit` when
non-empty.  Each step is a Go map assignment, so later writes overwrite. -/
def ToJSONData (kpi : KPI) : List (String × Jval) :=
  let p1 := kpi.attributes.foldl (fun m kv => mapInsert m kv.1 kv.2) []
  let p2 := kpi.metrics.foldl
    (fun m kv => mapInsert m ("$" ++ kv.1) (Jval.num kv.2)) p1
  let p3 := if kpi.key ≠ "" then
    mapInsert p2 ("$" ++ kpi.key) (Jval.num kpi.value) else p2
  let p4 := if kpi.date ≠ "" then mapInsert p3 "date" (Jval.str kpi.date) else p3
  if kpi.unit ≠ "" then mapInsert p4 "unit" (Jval.str kpi.unit) else p4

/-- Lexicographic byte order on char lists, mirroring the sorted key order of
`encoding/json` map output. -/
def charListLe : List Char → List Char → Bool
  | [], _ => true
  | _ :: _, [] => false
  | a :: as, b :: bs =>
    if a < b then true else if b < a then false else charListLe as bs

/-- Key order used by `encoding/json` when marshalling a Go map. -/
def strLe (a b : String) : Bool := charListLe a.data b.data

/-- Insertion step of the key sort. -/
def insortKV (kv : String × Jval) : List (String × Jval) → List (String × Jval)
  | [] => [kv]
  | x :: xs => if strLe kv.1 x.1 then kv :: x :: xs else x :: insortKV kv xs

/-- Sort object fields by key, as `encoding/json.Marshal` does for Go maps. -/
def sortKV (l : List (String × Jval)) : List (String × Jval) :=
  l.foldr insortKV []

/-- Hexadecimal digit used in `\u00XX` escapes. -/
def hexDigit (n : Nat) : Char :=
  if n < 10 then Char.ofNat (48 + n) else Char.ofNat (87 + n)

/-- Escaping of one character inside a JSON string, as the Go encoder emits
it (with its default HTML escaping of angle brackets and ampersand). -/
def escapeChar (c : Char) : String :=
  if c = '"' then "\\\""
  else if c = '\\' then "\\\\"
  else if c = '\n' then "\\n"
  else if c = '\r' then "\\r"
  else if c = '\t' then "\\t"
  else if c = '<' then "\\u003c"
  else if c = '>' then "\\u003e"
  else if c = '&' then "\\u0026"
  else if c.toNat < 32 then
    "\\u00" ++ String.mk [hexDigit (c.toNat / 16), hexDigit (c.toNat % 16)]
  else String.mk [c]

/-- JSON string literal bytes for `s`. -/
def renderJString (s : String) : String :=
  "\"" ++ (s.data.foldl (fun acc c => acc ++ escapeChar c) "") ++ "\""

/-- Number rendering.  Go prints an integral float32 without a decimal point
(`42`); integral rationals render the same way, the non-integral case is an
abstraction of the shortest-decimal float format (no claim inspects it). -/
def renderNum (q : ℚ) : String :=
  if q.den = 1 then toString q.num
  else toString q.num ++ "e-" ++ toString q.den

mutual
/-- JSON bytes of a value.  Object fields are emitted in stored order; the
serialization path sorts the field lists first (see `renderWrap`), matching
the sorted map-key output of `encoding/json.Marshal`. -/
def renderJ : Jval → String
  | Jval.null => "null"
  | Jval.bool true => "true"
  | Jval.bool false => "false"
  | Jval.num q => renderNum q
  | Jval.str s => renderJString s
  | Jval.arr xs => "[" ++ renderList xs ++ "]"
  | Jval.obj fs => "\x7b" ++ renderFields fs ++ "\x7d"

/-- Comma-separated rendering of array elements. -/
def renderList : List Jval → String
  | [] => ""
  | [x] => renderJ x
  | x :: y :: rest => renderJ x ++ "," ++ renderList (y :: rest)

/-- Comma-separated rendering of object fields. -/
def renderFields : List (String × Jval) → String
  | [] => ""
  | [kv] => renderJString kv.1 ++ ":" ++ renderJ kv.2
  | kv :: kv2 :: rest =>
    renderJString kv.1 ++ ":" ++ renderJ kv.2 ++ "," ++ renderFields (kv2 :: rest)
end

/-- JSON bytes of a `KPIWrap` value, following `json.Marshal` on the struct:
fields in declaration order (`data` then `meta`), `meta` dropped when nil or
empty (`omitempty`), map keys sorted. -/
def renderWrap (w : KPIWrap) : String :=
  let metaPart : String :=
    match w.meta with
    | none => ""
    | some [] => ""
    | some m => ",\"meta\":" ++ renderJ (Jval.obj (sortKV m))
  "\x7b\"data\":["
    ++ String.intercalate "," (w.data.map (fun m => renderJ (Jval.obj (sortKV m))))
    ++ "]" ++ metaPart ++ "\x7d"

/-- Envelope value built by serializeKPIs (lines 285-300) before marshalling:
`Data` collects `ToJSONData` of each record (starting from an empty non-nil
slice), `Meta` is set to `ensure_unique: true` exactly when forcePush is set. -/
def serializeKPIsWrap (kpis : List KPI) (forcePush : Bool) : KPIWrap :=
  { data := kpis.map ToJSONData
    meta := if forcePush then some [("ensure_unique", Jval.bool true)] else none }

/-- Payload bytes produced by serializeKPIs (lines 285-300).  `json.Marshal`
cannot fail on these shapes (all values are JSON-representable), so the
error return of the Go function is unreachable and the model is total. -/
def serializeKPIs (kpis : List KPI) (forcePush : Bool) : String :=
  renderWrap (serializeKPIsWrap kpis forcePush)

/-- Client struct (lines 29-33).  The `HTTPClient` field is not part of the
pure state; the HTTP exchange is abstracted as an oracle argument below. -/
structure Client where
  pushToken : String
  pushHost : String

/-- Fixed production URL (line 24). -/
def apiURL : String := "https://push.databox.com"

/-- Client version constant (line 25). -/
def clientVersion : String := "2.1.0"

/-- User-Agent header value built in postRequest/getRequest. -/
def userAgent : String := "databox-go/" ++ clientVersion

/-- Accept header value: major version of `clientVersion` spliced into the
vendored media type (`strings.Split(clientVersion, ".")[0]`). -/
def acceptHeader : String :=
  "application/vnd.databox.v" ++ ((clientVersion.splitOn ".").headD "") ++ "+json"

/-- One outgoing HTTP request, with the headers and auth the code sets. -/
structure HTTPRequest where
  method : String
  url : String
  userAgent : String
  accept : String
  contentType : String
  authUser : String
  authPass : String
  body : Option String
deriving DecidableEq

/-- Request built by postRequest (lines 105-115).  The URL is formed from the
package constant `apiURL`; the `PushHost` field of the client is not read. -/
def mkPostRequest (c : Client) (path payload : String) : HTTPRequest :=
  { method := "POST"
    url := apiURL ++ path
    userAgent := userAgent
    accept := acceptHeader
    contentType := "application/json"
    authUser := c.pushToken
    authPass := ""
    body := some payload }

/-- Request built by getRequest (lines 139-149); again the URL comes from the
constant `apiURL`, not from the client value. -/
def mkGetRequest (c : Client) (path : String) : HTTPRequest :=
  { method := "GET"
    url := apiURL ++ path
    userAgent := userAgent
    accept := acceptHeader
    contentType := "application/json"
    authUser := c.pushToken
    authPass := ""
    body := none }

/-- Response seen after a successful exchange: status code and body.  The body
is carried as `some j` when the bytes are valid JSON parsing to `j`, `none`
when they are not valid JSON. -/
structure HTTPResponse where
  statusCode : Int
  body : Option Jval

/-- Result of `HTTPClient.Do` plus the body read: either a transport failure
(network error, cancellation, body read error) or a response. -/
inductive TransportResult where
  | failure : String → TransportResult
  | success : HTTPResponse → TransportResult

/-- Error taxonomy of the client, by kind, with the message text carried
where the code builds one. -/
inductive ReqError where
  | transport : String → ReqError
  | decode : String → ReqError
  | api : String → ReqError
  | nilDeref : ReqError
  | emptyResult : String → ReqError
deriving DecidableEq

/-- Wrapping with `fmt.Errorf("<context>: %w", err)` prefixes the message and
keeps the kind. -/
def wrapErr (p : String) : ReqError → ReqError
  | ReqError.transport m => ReqError.transport (p ++ m)
  | ReqError.decode m => ReqError.decode (p ++ m)
  | ReqError.api m => ReqError.api (p ++ m)
  | ReqError.nilDeref => ReqError.nilDeref
  | ReqError.emptyResult m => ReqError.emptyResult (p ++ m)

/-- Field read during `json.Unmarshal` of an object: the last binding of the
key wins (later duplicate keys in the JSON text overwrite earlier ones). -/
def objField (fs : List (String × Jval)) (k : String) : Option Jval :=
  (fs.reverse.find? (fun kv => kv.1 == k)).map Prod.snd

/-- Decode one struct field: an absent or null field leaves the zero value. -/
def decodeField {α : Type} (fs : List (String × Jval)) (k : String)
    (d : Jval → Except String α) (z : α) : Except String α :=
  match objField fs k with
  | none => Except.ok z
  | some Jval.null => Except.ok z
  | some j => d j

/-- Unmarshal into a Go string: strings decode, null leaves the zero value,
anything else is a type error. -/
def decodeString : Jval → Except String String
  | Jval.null => Except.ok ""
  | Jval.str s => Except.ok s
  | _ => Except.error "cannot unmarshal value into string"

/-- Unmarshal into `[]string`. -/
def decodeStringList : Jval → Except String (List String)
  | Jval.null => Except.ok []
  | Jval.arr xs => xs.mapM decodeString
  | _ => Except.error "cannot unmarshal value into string slice"

/-- Unmarshal into `map[string]interface{}`: any object decodes. -/
def decodeObjMap : Jval → Except String (List (String × Jval))
  | Jval.null => Except.ok []
  | Jval.obj fs => Except.ok fs
  | _ => Except.error "cannot unmarshal value into map"

/-- Unmarshal into a `ResponseStatus` value (fields `id`, `type`, `message`,
all strings; unknown keys ignored). -/
def decodeResponseStatus : Jval → Except String ResponseStatus
  | Jval.null => Except.ok zeroRS
  | Jval.obj fs => do
    let i ← decodeField fs "id" decodeString ""
    let t ← decodeField fs "type" decodeString ""
    let m ← decodeField fs "message" decodeString ""
    Except.ok ⟨i, t, m⟩
  | _ => Except.error "cannot unmarshal value into ResponseStatus"

/-- Unmarshal through the `*ResponseStatus` double pointer the code passes
(`var responseStatus = &ResponseStatus{}; json.Unmarshal(data, &responseStatus)`):
JSON null sets the inner pointer to nil (`none`); anything else decodes the
pointed-to struct. -/
def unmarshalRSPtr : Jval → Except String (Option ResponseStatus)
  | Jval.null => Except.ok none
  | j => (decodeResponseStatus j).map some

/-- Unmarshal into `[]map[string]interface{}` (the `data` field of KPIWrap). -/
def decodeDataList : Jval → Except String (List (List (String × Jval)))
  | Jval.null => Except.ok []
  | Jval.arr xs => xs.mapM decodeObjMap
  | _ => Except.error "cannot unmarshal value into data slice"

/-- Unmarshal into the `meta` map (nil map for JSON null). -/
def decodeMeta : Jval → Except String (Option (List (String × Jval)))
  | Jval.null => Except.ok none
  | Jval.obj fs => Except.ok (some fs)
  | _ => Except.error "cannot unmarshal value into meta map"

/-- Unmarshal into a `KPIWrap` value. -/
def decodeKPIWrap : Jval → Except String KPIWrap
  | Jval.null => Except.ok zeroWrap
  | Jval.obj fs => do
    let d ← decodeField fs "data" decodeDataList []
    let m ← decodeField fs "meta" decodeMeta none
    Except.ok ⟨d, m⟩
  | _ => Except.error "cannot unmarshal value into KPIWrap"

/-- Unmarshal into a `PushRequest` value. -/
def decodePushRequest : Jval → Except String PushRequest
  | Jval.null => Except.ok zeroPushRequest
  | Jval.obj fs => do
    let d ← decodeField fs "date" decodeString ""
    let b ← decodeField fs "body" decodeKPIWrap zeroWrap
    let e ← decodeField fs "errors" decodeStringList []
    Except.ok ⟨d, b, e⟩
  | _ => Except.error "cannot unmarshal value into PushRequest"

/-- Unmarshal into a `PushResponse` value. -/
def decodePushResponse : Jval → Except String PushResponse
  | Jval.null => Except.ok zeroPushResponse
  | Jval.obj fs => do
    let d ← decodeField fs "date" decodeString ""
    let b ← decodeField fs "body" decodeResponseStatus zeroRS
    Except.ok ⟨d, b⟩
  | _ => Except.error "cannot unmarshal value into PushResponse"

/-- Unmarshal into a `LastPush` value. -/
def decodeLastPush : Jval → Except String LastPush
  | Jval.null => Except.ok zeroLastPush
  | Jval.obj fs => do
    let rq ← decodeField fs "request" decodePushRequest zeroPushRequest
    let rs ← decodeField fs "response" decodePushResponse zeroPushResponse
    let ms ← decodeField fs "metrics" decodeStringList []
    Except.ok ⟨rq, rs, ms⟩
  | _ => Except.error "cannot unmarshal value into LastPush"

/-- Unmarshal of the response body into `[]LastPush` (lines 178-181).  An
invalid-JSON body is a decode error; JSON null sets the slice to nil, which
the caller returns as an empty history. -/
def unmarshalLastPushList (body : Option Jval) : Except String (List LastPush) :=
  match body with
  | none => Except.error "invalid JSON"
  | some Jval.null => Except.ok []
  | some (Jval.arr xs) => xs.mapM decodeLastPush
  | some _ => Except.error "cannot unmarshal value into LastPush slice"

/-- Unmarshal of a 2xx push response body into the `*ResponseStatus` double
pointer (lines 222-225 and 248-251).  On this path a JSON null body leaves a
nil pointer which is returned without being dereferenced. -/
def unmarshalRS2xx (body : Option Jval) : Except String (Option ResponseStatus) :=
  match body with
  | none => Except.error "invalid JSON"
  | some j => unmarshalRSPtr j

/-- Error produced by the non-2xx branch of postRequest (lines 128-134):
unmarshal the body as ResponseStatus; on unmarshal failure report a decode
error; on success build `Type + ": " + Message` — which dereferences the nil
pointer when the body was JSON null. -/
def handleNon2xx (body : Option Jval) : ReqError :=
  match body with
  | none => ReqError.decode "cannot unmarshal data: invalid JSON"
  | some j =>
    match unmarshalRSPtr j with
    | Except.error m => ReqError.decode ("cannot unmarshal data: " ++ m)
    | Except.ok none => ReqError.nilDeref
    | Except.ok (some rs) => ReqError.api (rs.type ++ ": " ++ rs.message)

/-- postRequest (lines 105-137): build the request from the constant URL,
perform the exchange, and on a status outside 200-299 turn the body into an
error via `handleNon2xx`; otherwise hand the body bytes back. -/
def postRequest (http : HTTPRequest → TransportResult) (c : Client)
    (path payload : String) : Except ReqError (Option Jval) :=
  match http (mkPostRequest c path payload) with
  | TransportResult.failure m =>
    Except.error (ReqError.transport ("executing HTTP request: " ++ m))
  | TransportResult.success resp =>
    if resp.statusCode < 200 ∨ resp.statusCode > 299 then
      Except.error (handleNon2xx resp.body)
    else
      Except.ok resp.body

/-- getRequest (lines 139-162): build the request from the constant URL,
perform the exchange, and return the body bytes.  The status code is never
inspected on this path. -/
def getRequest (http : HTTPRequest → TransportResult) (c : Client)
    (path : String) : Except ReqError (Option Jval) :=
  match http (mkGetRequest c path) with
  | TransportResult.failure m =>
    Except.error (ReqError.transport ("executing HTTP request: " ++ m))
  | TransportResult.success resp => Except.ok resp.body

/-- LastPushesCtx (lines 171-184): GET `/lastpushes?limit=n`, wrap transport
errors, unmarshal the body as `[]LastPush`. -/
def LastPushesCtx (http : HTTPRequest → TransportResult) (c : Client)
    (n : Int) : Except ReqError (List LastPush) :=
  match getRequest http c ("/lastpushes?limit=" ++ toString n) with
  | Except.error e => Except.error (wrapErr "requesting /lastpushes from API: " e)
  | Except.ok body =>
    match unmarshalLastPushList body with
    | Except.error m => Except.error (ReqError.decode ("cannot unmarshal response: " ++ m))
    | Except.ok ls => Except.ok ls

/-- LastPushCtx (lines 193-202): LastPushes(1); propagate its error; report
`no last push` on an empty history; otherwise the first element. -/
def LastPushCtx (http : HTTPRequest → TransportResult) (c : Client) :
    Except ReqError LastPush :=
  match LastPushesCtx http c 1 with
  | Except.error e => Except.error e
  | Except.ok ls =>
    match ls with
    | [] => Except.error (ReqError.emptyResult "no last push")
    | x :: _ => Except.ok x

/-- PushCtx (lines 211-228): serialize a single-record envelope with the
force flag off, POST it to `/`, unmarshal the 2xx body as ResponseStatus. -/
def PushCtx (http : HTTPRequest → TransportResult) (c : Client) (kpi : KPI) :
    Except ReqError (Option ResponseStatus) :=
  let payload := serializeKPIs [kpi] false
  match postRequest http c "/" payload with
  | Except.error e => Except.error (wrapErr "sending request: " e)
  | Except.ok body =>
    match unmarshalRS2xx body with
    | Except.error m =>
      Except.error (ReqError.decode ("cannot unmarshal respoonse: " ++ m))
    | Except.ok rs => Except.ok rs

/-- InsertAll (lines 237-254): serialize the record list with the given force
flag, POST it to `/`, unmarshal the 2xx body as ResponseStatus. -/
def InsertAll (http : HTTPRequest → TransportResult) (c : Client)
    (kpis : List KPI) (forcePush : Bool) : Except ReqError (Option ResponseStatus) :=
  let payload := serializeKPIs kpis forcePush
  match postRequest http c "/" payload with
  | Except.error e => Except.error (wrapErr "sending request: " e)
  | Except.ok body =>
    match unmarshalRS2xx body with
    | Except.error m =>
      Except.error (ReqError.decode ("cannot unmarshal respoonse: " ++ m))
    | Except.ok rs => Except.ok rs

/-- NewClient (lines 91-103): stores the token and the fixed production host
in the client value. -/
def NewClient (pushToken : String) : Client :=
  { pushToken := pushToken, pushHost := apiURL }

/-- Helper predicate: is the result an APIError (the combined type/message
error built on the non-2xx push path). -/
def isApiError {α : Type} : Except ReqError α → Bool
  | Except.error (ReqError.api _) => true
  | _ => false


theorem mapGet_nil (q : String) : mapGet [] q = none := rfl

theorem find?_filter_ne (l : List (String × Jval)) (k q : String) (h : q ≠ k) :
    (l.filter (fun kv => !(kv.1 == k))).find? (fun kv => kv.1 == q)
      = l.find? (fun kv => kv.1 == q) := by
  induction l with
  | nil => rfl
  | cons x xs ih =>
    by_cases hq : x.1 = q
    · have hqk : (q == k) = false := by simp [h]
      simp [List.filter_cons, List.find?_cons, hq, hqk]
    · have hq2 : (x.1 == q) = false := by simp [hq]
      by_cases hxk : x.1 = k
      · simp [List.filter_cons, List.find?_cons, hxk, hq2, ih,
          show (k == q) = false by simp; exact fun hh => h hh.symm]
      · have hk2 : (x.1 == k) = false := by simp [hxk]
        simp [List.filter_cons, List.find?_cons, hk2, hq2, ih]

theorem mapGet_mapInsert (m : List (String × Jval)) (k q : String) (v : Jval) :
    mapGet (mapInsert m k v) q = if q = k then some v else mapGet m q := by
  unfold mapGet mapInsert
  by_cases h : q = k
  · subst h
    rw [List.find?_append]
    have h1 : (m.filter (fun kv => !(kv.1 == q))).find? (fun kv => kv.1 == q) = none := by
      rw [List.find?_eq_none]
      intro x hx
      have := (List.mem_filter.mp hx).2
      simpa using this
    rw [h1]
    simp [List.find?]
  · rw [List.find?_append, find?_filter_ne m k q h]
    have h2 : List.find? (fun kv => kv.1 == q) [(k, v)] = none := by
      simp [List.find?_cons, show (k == q) = false by simp; exact fun hh => h hh.symm]
    rw [h2]
    simp [h]



theorem mapGet_foldl_attr (l : List (String × Jval)) :
    ∀ (m0 : List (String × Jval)) (q : String),
    mapGet (l.foldl (fun m kv => mapInsert m kv.1 kv.2) m0) q =
      match l.reverse.find? (fun kv => kv.1 == q) with
      | some kv => some kv.2
      | none => mapGet m0 q := by
  induction l with
  | nil => intro m0 q; rfl
  | cons x xs ih =>
    intro m0 q
    rw [List.foldl_cons, ih, List.reverse_cons, List.find?_append]
    cases hfind : xs.reverse.find? (fun kv => kv.1 == q) with
    | some kv => simp
    | none =>
      simp only [Option.none_orElse]
      rw [mapGet_mapInsert]
      by_cases h : q = x.1
      · simp [List.find?_cons, h]
      · have : (x.1 == q) = false := by simp; exact fun hh => h hh.symm
        simp [List.find?_cons, this, h]

theorem mapGet_foldl_metrics (l : List (String × ℚ)) :
    ∀ (m0 : List (String × Jval)) (q : String),
    mapGet (l.foldl (fun m kv => mapInsert m ("$" ++ kv.1) (Jval.num kv.2)) m0) q =
      match l.reverse.find? (fun kv => ("$" ++ kv.1) == q) with
      | some kv => some (Jval.num kv.2)
      | none => mapGet m0 q := by
  induction l with
  | nil => intro m0 q; rfl
  | cons x xs ih =>
    intro m0 q
    rw [List.foldl_cons, ih, List.reverse_cons, List.find?_append]
    cases hfind : xs.reverse.find? (fun kv => ("$" ++ kv.1) == q) with
    | some kv => simp
    | none =>
      simp only [Option.none_orElse]
      rw [mapGet_mapInsert]
      by_cases h : q = "$" ++ x.1
      · simp [List.find?_cons, h]
      · have : (("$" ++ x.1) == q) = false := by simp; exact fun hh => h hh.symm
        simp [List.find?_cons, this, h]



theorem ToJSONData_get (kpi : KPI) (k : String) :
    mapGet (ToJSONData kpi) k =
      if kpi.unit ≠ "" ∧ k = "unit" then some (Jval.str kpi.unit)
      else if kpi.date ≠ "" ∧ k = "date" then some (Jval.str kpi.date)
      else if kpi.key ≠ "" ∧ k = "$" ++ kpi.key then some (Jval.num kpi.value)
      else match kpi.metrics.reverse.find? (fun kv => ("$" ++ kv.1) == k) with
        | some kv => some (Jval.num kv.2)
        | none =>
          match kpi.attributes.reverse.find? (fun kv => kv.1 == k) with
          | some kv => some kv.2
          | none => none := by
  unfold ToJSONData
  by_cases hu : kpi.unit = "" <;> by_cases hd : kpi.date = "" <;> by_cases hk : kpi.key = "" <;>
    simp only [hu, hd, hk, ne_eq, not_true_eq_false, not_false_eq_true, if_true, if_false,
      ite_true, ite_false, false_and, true_and, mapGet_mapInsert, mapGet_foldl_metrics,
      mapGet_foldl_attr, mapGet_nil] <;>
    (try by_cases h1 : k = "unit") <;> (try by_cases h2 : k = "date") <;>
    (try by_cases h3 : k = "$" ++ kpi.key) <;>
    simp_all <;>
    (repeat' split) <;> simp_all


theorem dollar_append_inj {a b : String} (h : "$" ++ a = "$" ++ b) : a = b := by
  have hd : ("$" ++ a).data = ("$" ++ b).data := congrArg String.data h
  have ha : ("$" ++ a).data = '$' :: a.data := rfl
  have hb : ("$" ++ b).data = '$' :: b.data := rfl
  rw [ha, hb] at hd
  cases a; cases b
  simp_all

theorem dollar_ne_date (s : String) : "$" ++ s ≠ "date" := by
  intro h
  have hd : ("$" ++ s).data = "date".data := congrArg String.data h
  have ha : ("$" ++ s).data = '$' :: s.data := rfl
  rw [ha] at hd
  have : '$' = 'd' := by
    have := congrArg (fun l => l.headD ' ') hd
    simpa using this
  exact absurd this (by decide)

theorem dollar_ne_unit (s : String) : "$" ++ s ≠ "unit" := by
  intro h
  have hd : ("$" ++ s).data = "unit".data := congrArg String.data h
  have ha : ("$" ++ s).data = '$' :: s.data := rfl
  rw [ha] at hd
  have : '$' = 'u' := by
    have := congrArg (fun l => l.headD ' ') hd
    simpa using this
  exact absurd this (by decide)


/-- C1: ToJSONData writes attributes first, then metrics under their
dollar-prefixed names (overwriting colliding attributes), then value under
the dollar-prefixed key (overwriting any prior entry); hence a metrics entry
wins over a colliding attribute, the key/value pair wins over everything at
its key, and attributes survive exactly when nothing later collides. -/
theorem c1_tojsondata_order_and_precedence (kpi : KPI) :
    (∀ m v, lookupLast kpi.metrics m = some v →
      (kpi.key = "" ∨ kpi.key ≠ m) →
      mapGet (ToJSONData kpi) ("$" ++ m) = some (Jval.num v))
    ∧ (kpi.key ≠ "" →
      mapGet (ToJSONData kpi) ("$" ++ kpi.key) = some (Jval.num kpi.value))
    ∧ (∀ a v, lookupLast kpi.attributes a = some v →
      (∀ kv ∈ kpi.metrics, ("$" ++ kv.1) ≠ a) →
      (kpi.key = "" ∨ ("$" ++ kpi.key) ≠ a) →
      (kpi.date = "" ∨ a ≠ "date") →
      (kpi.unit = "" ∨ a ≠ "unit") →
      mapGet (ToJSONData kpi) a = some v) := by
  refine ⟨?_, ?_, ?_⟩
  · intro m v hm hkey
    rw [ToJSONData_get]
    have hu : ¬ (kpi.unit ≠ "" ∧ ("$" ++ m) = "unit") :=
      fun hh => dollar_ne_unit m hh.2
    have hd : ¬ (kpi.date ≠ "" ∧ ("$" ++ m) = "date") :=
      fun hh => dollar_ne_date m hh.2
    have hk : ¬ (kpi.key ≠ "" ∧ ("$" ++ m) = "$" ++ kpi.key) := by
      rintro ⟨hk1, hk2⟩
      rcases hkey with h | h
      · exact hk1 h
      · exact h (dollar_append_inj hk2).symm
    rw [if_neg hu, if_neg hd, if_neg hk]
    have hpred : (fun kv : String × ℚ => (("$" ++ kv.1) == ("$" ++ m)))
        = (fun kv : String × ℚ => kv.1 == m) := by
      funext kv
      by_cases h : kv.1 = m
      · simp [h]
      · have h2 : ¬ ("$" ++ kv.1 = "$" ++ m) := fun hh => h (dollar_append_inj hh)
        simp [h, h2]
    rw [hpred]
    rw [lookupLast] at hm
    cases hf : kpi.metrics.reverse.find? (fun kv => kv.1 == m) with
    | none => rw [hf] at hm; simp at hm
    | some kv => rw [hf] at hm; simp at hm; simp [hm]
  · intro hk1
    rw [ToJSONData_get]
    have hu : ¬ (kpi.unit ≠ "" ∧ ("$" ++ kpi.key) = "unit") :=
      fun hh => dollar_ne_unit kpi.key hh.2
    have hd : ¬ (kpi.date ≠ "" ∧ ("$" ++ kpi.key) = "date") :=
      fun hh => dollar_ne_date kpi.key hh.2
    rw [if_neg hu, if_neg hd, if_pos ⟨hk1, rfl⟩]
  · intro a v ha hno hkey hdate hunit
    rw [ToJSONData_get]
    have hu : ¬ (kpi.unit ≠ "" ∧ a = "unit") := by
      rintro ⟨h1, h2⟩
      rcases hunit with h | h
      · exact h1 h
      · exact h h2
    have hd : ¬ (kpi.date ≠ "" ∧ a = "date") := by
      rintro ⟨h1, h2⟩
      rcases hdate with h | h
      · exact h1 h
      · exact h h2
    have hk : ¬ (kpi.key ≠ "" ∧ a = "$" ++ kpi.key) := by
      rintro ⟨h1, h2⟩
      rcases hkey with h | h
      · exact h1 h
      · exact h h2.symm
    rw [if_neg hu, if_neg hd, if_neg hk]
    have hm : kpi.metrics.reverse.find? (fun kv => ("$" ++ kv.1) == a) = none := by
      rw [List.find?_eq_none]
      intro kv hkv
      have := hno kv (List.mem_reverse.mp hkv)
      simp [this]
    rw [hm]
    rw [lookupLast] at ha
    cases hf : kpi.attributes.reverse.find? (fun kv => kv.1 == a) with
    | none => rw [hf] at ha; simp at ha
    | some kv => rw [hf] at ha; simp at ha; simp [ha]


/-- C2 (code evaluated at the failing input): the requests built by
postRequest and getRequest are independent of the PushHost field and always
target the constant apiURL, even when PushHost is set to another host. -/
theorem c2_pushhost_never_used :
    (∀ (tok h1 h2 path payload : String),
      mkPostRequest ⟨tok, h1⟩ path payload = mkPostRequest ⟨tok, h2⟩ path payload)
    ∧ (∀ (tok h1 h2 path : String),
      mkGetRequest ⟨tok, h1⟩ path = mkGetRequest ⟨tok, h2⟩ path)
    ∧ (∀ (c : Client) (path payload : String),
      (mkPostRequest c path payload).url = apiURL ++ path)
    ∧ (∀ (c : Client) (path : String), (mkGetRequest c path).url = apiURL ++ path)
    ∧ (mkPostRequest ⟨"token", "https://example.invalid"⟩ "/" "x").url
        = "https://push.databox.com/"
    ∧ (mkGetRequest ⟨"token", "https://example.invalid"⟩ "/lastpushes?limit=1").url
        = "https://push.databox.com/lastpushes?limit=1"
    ∧ (∀ (http : HTTPRequest → TransportResult) (tok h1 h2 : String) (kpi : KPI),
      PushCtx http ⟨tok, h1⟩ kpi = PushCtx http ⟨tok, h2⟩ kpi)
    ∧ (∀ (http : HTTPRequest → TransportResult) (tok h1 h2 : String)
        (kpis : List KPI) (f : Bool),
      InsertAll http ⟨tok, h1⟩ kpis f = InsertAll http ⟨tok, h2⟩ kpis f)
    ∧ (∀ (http : HTTPRequest → TransportResult) (tok h1 h2 : String) (n : Int),
      LastPushesCtx http ⟨tok, h1⟩ n = LastPushesCtx http ⟨tok, h2⟩ n)
    ∧ (∀ (http : HTTPRequest → TransportResult) (tok h1 h2 : String),
      LastPushCtx http ⟨tok, h1⟩ = LastPushCtx http ⟨tok, h2⟩) :=
  ⟨fun _ _ _ _ _ => rfl, fun _ _ _ _ => rfl, fun _ _ _ => rfl, fun _ _ => rfl, rfl, rfl,
   fun _ _ _ _ _ => rfl, fun _ _ _ _ _ _ => rfl, fun _ _ _ _ _ => rfl, fun _ _ _ _ => rfl⟩

/-- C3 counterexample: a non-2xx response whose body is valid JSON (the JSON
array `[]`) does not fail with the combined type/message error the claim
promises for every valid-JSON body; it fails with a decode error. -/
theorem c3_counterexample :
    postRequest (fun _ => TransportResult.success ⟨400, some (Jval.arr [])⟩)
        ⟨"t", apiURL⟩ "/" "p"
      = Except.error (ReqError.decode
          "cannot unmarshal data: cannot unmarshal value into ResponseStatus")
    ∧ isApiError (postRequest (fun _ => TransportResult.success ⟨400, some (Jval.arr [])⟩)
        ⟨"t", apiURL⟩ "/" "p") = false :=
  ⟨rfl, rfl⟩

/-- C3 (amended): on a non-2xx push response, a body that is valid JSON and
unmarshals into the type/message structure fails with the combined error
`type: message` verbatim; a body that is not valid JSON, or is valid JSON
that fails to unmarshal into that structure, fails with a decode error; a
valid JSON null body hits a nil-pointer dereference.  The HTTP error is
never silently ignored. -/
theorem c3_non2xx_error_mapping (s : Int) (body : Option Jval) (c : Client)
    (path payload : String) (hs : s < 200 ∨ s > 299) :
    (body = none →
      postRequest (fun _ => TransportResult.success ⟨s, body⟩) c path payload
        = Except.error (ReqError.decode "cannot unmarshal data: invalid JSON"))
    ∧ (∀ j rs, body = some j → unmarshalRSPtr j = Except.ok (some rs) →
      postRequest (fun _ => TransportResult.success ⟨s, body⟩) c path payload
        = Except.error (ReqError.api (rs.type ++ ": " ++ rs.message)))
    ∧ (∀ j m, body = some j → unmarshalRSPtr j = Except.error m →
      postRequest (fun _ => TransportResult.success ⟨s, body⟩) c path payload
        = Except.error (ReqError.decode ("cannot unmarshal data: " ++ m)))
    ∧ (body = some Jval.null →
      postRequest (fun _ => TransportResult.success ⟨s, body⟩) c path payload
        = Except.error ReqError.nilDeref) := by
  have hred : ∀ b : Option Jval,
      postRequest (fun _ => TransportResult.success ⟨s, b⟩) c path payload
        = if s < 200 ∨ s > 299 then Except.error (handleNon2xx b) else Except.ok b :=
    fun b => rfl
  refine ⟨?_, ?_, ?_, ?_⟩
  · intro hb
    subst hb
    rw [hred, if_pos hs]
    rfl
  · intro j rs hb hj
    subst hb
    rw [hred, if_pos hs]
    simp only [handleNon2xx]
    rw [hj]
  · intro j m hb hj
    subst hb
    rw [hred, if_pos hs]
    simp only [handleNon2xx]
    rw [hj]
  · intro hb
    subst hb
    rw [hred, if_pos hs]
    rfl

/-- C3 witness: a 404 with body `{"type":"bad","message":"oops"}` fails
with the combined error `bad: oops`. -/
theorem c3_witness :
    postRequest
        (fun _ => TransportResult.success
          ⟨404, some (Jval.obj [("type", Jval.str "bad"), ("message", Jval.str "oops")])⟩)
        ⟨"t", apiURL⟩ "/" "p"
      = Except.error (ReqError.api "bad: oops") :=
  (c3_non2xx_error_mapping 404
      (some (Jval.obj [("type", Jval.str "bad"), ("message", Jval.str "oops")]))
      ⟨"t", apiURL⟩ "/" "p" (Or.inr (by decide))).2.1
    (Jval.obj [("type", Jval.str "bad"), ("message", Jval.str "oops")])
    ⟨"", "bad", "oops"⟩ rfl rfl


/-- C4: the read path never inspects the HTTP status code and never applies
the type/message error decoding: the result of LastPushes is unchanged under
any change of status code, and every failure is a transport or a decode
error. -/
theorem c4_read_path_ignores_status :
    (∀ (c : Client) (n s1 s2 : Int) (b : Option Jval),
      LastPushesCtx (fun _ => TransportResult.success ⟨s1, b⟩) c n
        = LastPushesCtx (fun _ => TransportResult.success ⟨s2, b⟩) c n)
    ∧ (∀ (http : HTTPRequest → TransportResult) (c : Client) (n : Int) (e : ReqError),
      LastPushesCtx http c n = Except.error e →
        (∃ m, e = ReqError.transport m) ∨ (∃ m, e = ReqError.decode m)) := by
  constructor
  · intro c n s1 s2 b
    rfl
  · intro http c n e h
    unfold LastPushesCtx getRequest at h
    cases htr : http (mkGetRequest c ("/lastpushes?limit=" ++ toString n)) with
    | failure m =>
      rw [htr] at h
      simp [wrapErr] at h
      exact Or.inl ⟨_, h.symm⟩
    | success resp =>
      rw [htr] at h
      replace h : (match unmarshalLastPushList resp.body with
        | Except.error m =>
          Except.error (ReqError.decode ("cannot unmarshal response: " ++ m))
        | Except.ok ls => Except.ok ls) = Except.error e := h
      cases hu : unmarshalLastPushList resp.body with
      | error m =>
        rw [hu] at h
        simp at h
        exact Or.inr ⟨_, h.symm⟩
      | ok ls =>
        rw [hu] at h
        simp at h

/-- C4 witness: a transport failure surfaces as a transport error. -/
theorem c4_witness :
    (∃ m, ReqError.transport
        "requesting /lastpushes from API: executing HTTP request: boom"
        = ReqError.transport m)
    ∨ (∃ m, ReqError.transport
        "requesting /lastpushes from API: executing HTTP request: boom"
        = ReqError.decode m) :=
  c4_read_path_ignores_status.2 (fun _ => TransportResult.failure "boom")
    ⟨"t", apiURL⟩ 1
    (ReqError.transport "requesting /lastpushes from API: executing HTTP request: boom")
    rfl

/-- C5: LastPush is LastPushes(1) followed by taking the first element; an
error propagates unchanged, an empty history yields the empty-result error
`no last push`, a non-empty history yields its first element. -/
theorem c5_lastpush_is_lastpushes_one (http : HTTPRequest → TransportResult)
    (c : Client) :
    LastPushCtx http c =
      match LastPushesCtx http c 1 with
      | Except.error e => Except.error e
      | Except.ok [] => Except.error (ReqError.emptyResult "no last push")
      | Except.ok (x :: _) => Except.ok x := by
  unfold LastPushCtx
  cases LastPushesCtx http c 1 with
  | error e => rfl
  | ok ls => cases ls <;> rfl

/-- C6: forcePush=true yields an envelope whose meta mapping holds
ensure_unique=true and whose bytes carry the meta object; forcePush=false
yields an envelope without any meta field, both structurally and in the
emitted bytes. -/
theorem c6_meta_ensure_unique (kpis : List KPI) :
    (serializeKPIsWrap kpis true).meta = some [("ensure_unique", Jval.bool true)]
    ∧ (serializeKPIsWrap kpis false).meta = none
    ∧ serializeKPIs kpis true
        = "\x7b\"data\":["
          ++ String.intercalate ","
            (kpis.map (fun k => renderJ (Jval.obj (sortKV (ToJSONData k)))))
          ++ "]" ++ ",\"meta\":\x7b\"ensure_unique\":true\x7d" ++ "\x7d"
    ∧ serializeKPIs kpis false
        = "\x7b\"data\":["
          ++ String.intercalate ","
            (kpis.map (fun k => renderJ (Jval.obj (sortKV (ToJSONData k)))))
          ++ "]" ++ "\x7d" := by
  refine ⟨rfl, rfl, ?_, ?_⟩
  · unfold serializeKPIs renderWrap serializeKPIsWrap
    simp only [List.map_map, Function.comp_def]
    rfl
  · unfold serializeKPIs renderWrap serializeKPIsWrap
    simp [List.map_map, Function.comp_def, String.append_empty]

/-- C7: Push of one record is exactly InsertAll of the singleton list with
the force flag off: same serialized envelope, same path, same result. -/
theorem c7_push_equals_insertall (http : HTTPRequest → TransportResult)
    (c : Client) (kpi : KPI) :
    PushCtx http c kpi = InsertAll http c [kpi] false := rfl

/-- C8: the empty record list with forcePush=false serializes to exactly
`\x7b"data":[]\x7d` and the request is still issued: the call is exactly the
post pipeline applied to that payload. -/
theorem c8_empty_insertall :
    serializeKPIs [] false = "\x7b\"data\":[]\x7d"
    ∧ ∀ (http : HTTPRequest → TransportResult) (c : Client),
      InsertAll http c [] false
        = (match postRequest http c "/" "\x7b\"data\":[]\x7d" with
           | Except.error e => Except.error (wrapErr "sending request: " e)
           | Except.ok body =>
             match unmarshalRS2xx body with
             | Except.error m =>
               Except.error (ReqError.decode ("cannot unmarshal respoonse: " ++ m))
             | Except.ok rs => Except.ok rs) := by
  refine ⟨rfl, fun http c => ?_⟩
  rfl

/-- C9: serialization is a pure function of the record and the force flag:
identical inputs produce identical ToJSONData objects and identical envelope
bytes — there is no other input for it to depend on. -/
theorem c9_serialization_deterministic (r1 r2 : KPI) (f1 f2 : Bool)
    (hr : r1 = r2) (hf : f1 = f2) :
    ToJSONData r1 = ToJSONData r2
    ∧ serializeKPIs [r1] f1 = serializeKPIs [r2] f2
    ∧ ∀ ks : List KPI, serializeKPIs ks f1 = serializeKPIs ks f2 := by
  subst hr
  subst hf
  exact ⟨rfl, rfl, fun _ => rfl⟩

/-- C9 witness at a concrete record. -/
theorem c9_witness :
    ToJSONData ⟨"visits", 42, [], "", "count", []⟩
        = ToJSONData ⟨"visits", 42, [], "", "count", []⟩
    ∧ serializeKPIs [⟨"visits", 42, [], "", "count", []⟩] true
        = serializeKPIs [⟨"visits", 42, [], "", "count", []⟩] true
    ∧ ∀ ks : List KPI, serializeKPIs ks true = serializeKPIs ks true :=
  c9_serialization_deterministic ⟨"visits", 42, [], "", "count", []⟩
    ⟨"visits", 42, [], "", "count", []⟩ true true rfl rfl

/-- C10: with an empty key the value field is dropped: neither the
ToJSONData object nor the envelope bytes depend on it. -/
theorem c10_empty_key_drops_value (kpi : KPI) (v1 v2 : ℚ) (f : Bool)
    (h : kpi.key = "") :
    ToJSONData { kpi with value := v1 } = ToJSONData { kpi with value := v2 }
    ∧ serializeKPIs [{ kpi with value := v1 }] f
        = serializeKPIs [{ kpi with value := v2 }] f := by
  have h1 : ToJSONData { kpi with value := v1 } = ToJSONData { kpi with value := v2 } := by
    unfold ToJSONData
    simp [h]
  refine ⟨h1, ?_⟩
  unfold serializeKPIs serializeKPIsWrap
  simp [h1]

/-- C10 witness: a record with empty key and nonzero value serializes the
same as with the value zeroed. -/
theorem c10_witness :
    ToJSONData ⟨"", 5, [("a", 1)], "2024-01-01", "u", [("c", Jval.str "US")]⟩
        = ToJSONData ⟨"", 0, [("a", 1)], "2024-01-01", "u", [("c", Jval.str "US")]⟩
    ∧ serializeKPIs [⟨"", 5, [("a", 1)], "2024-01-01", "u", [("c", Jval.str "US")]⟩] false
        = serializeKPIs [⟨"", 0, [("a", 1)], "2024-01-01", "u", [("c", Jval.str "US")]⟩] false :=
  c10_empty_key_drops_value ⟨"", 5, [("a", 1)], "2024-01-01", "u", [("c", Jval.str "US")]⟩
    5 0 false rfl

/-- C1 witness: at a concrete record the metrics entry beats the colliding
attribute, the key/value pair lands at its dollar-prefixed key, and an
uncontested attribute survives. -/
theorem c1_witness :
    mapGet (ToJSONData ⟨"k", 7, [("x", 1)], "", "u",
        [("$x", Jval.str "old"), ("a", Jval.str "keep")]⟩) ("$" ++ "x")
      = some (Jval.num 1)
    ∧ mapGet (ToJSONData ⟨"k", 7, [("x", 1)], "", "u",
        [("$x", Jval.str "old"), ("a", Jval.str "keep")]⟩) ("$" ++ "k")
      = some (Jval.num 7)
    ∧ mapGet (ToJSONData ⟨"k", 7, [("x", 1)], "", "u",
        [("$x", Jval.str "old"), ("a", Jval.str "keep")]⟩) "a"
      = some (Jval.str "keep") :=
  ⟨(c1_tojsondata_order_and_precedence _).1 "x" 1 rfl (Or.inr (by decide)),
   (c1_tojsondata_order_and_precedence _).2.1 (by decide),
   (c1_tojsondata_order_and_precedence _).2.2 "a" (Jval.str "keep") rfl
     (by decide) (Or.inr (by decide)) (Or.inl rfl) (Or.inr (by decide))⟩

end Databox
